import Mathlib

/-!
Verification of the APRS coordinate codec in src/lonlat.rs and the status
decoder in src/status.rs.

Shallow embedding of the Rust sources. Machine floats (`f64`) are modelled by
`F64`: either NaN or a rational number; all arithmetic performed by the codec
(small integer sums, division by 60 and 6000) is represented exactly over `ℚ`.
Bytes are modelled as `Nat` (ASCII codes: 32 = space, 46 = dot, 48 = zero,
62 = greater-than, 69 = E, 78 = N, 83 = S, 87 = W, 90 = Z).
Fallible Rust functions returning `Result`/`Option` become `Option`/`Except`.
-/

/-- Model of an IEEE 64-bit float as used by the codec: NaN or a real (rational)
value. Infinities never arise in the functions embedded here. -/
inductive F64 where
  | nan : F64
  | fin : ℚ → F64
deriving DecidableEq

/-- IEEE `<` on floats: any comparison involving NaN is false. -/
def F64.lt : F64 → F64 → Bool
  | F64.fin a, F64.fin b => decide (a < b)
  | _, _ => false

/-- Rust `f64::is_nan`. -/
def F64.is_nan : F64 → Bool
  | F64.nan => true
  | F64.fin _ => false

/-- Modelled from the spec: the generic ASCII-digit-sequence-to-integer parser
(`bytes::parse_bytes`, outside the reviewed sources): bytes → unsigned integer,
failing on any non-digit byte. -/
def parse_bytes_aux (acc : Nat) : List Nat → Option Nat
  | [] => some acc
  | d :: rest =>
    if 48 ≤ d ∧ d ≤ 57 then parse_bytes_aux (acc * 10 + (d - 48)) rest else none

/-- Modelled from the spec: `parse_bytes` entry point. -/
def parse_bytes (b : List Nat) : Option Nat :=
  parse_bytes_aux 0 b

/-- Modelled from the spec: the `Precision` ambiguity enum (its defining file is
outside the reviewed sources). Six levels, from 5 blanked trailing digits of the
DDMMff sequence down to 0; names follow the test vectors in `lonlat.rs`. -/
inductive Precision where
  | TenDegree
  | OneDegree
  | TenMinute
  | OneMinute
  | TenthMinute
  | HundredthMinute
deriving DecidableEq

/-- Modelled from the spec: number of blanked trailing digits for each level. -/
def Precision.num_digits : Precision → Nat
  | Precision.TenDegree => 5
  | Precision.OneDegree => 4
  | Precision.TenMinute => 3
  | Precision.OneMinute => 2
  | Precision.TenthMinute => 1
  | Precision.HundredthMinute => 0

/-- Modelled from the spec: `Precision::from_num_digits`; the fully-blank count
6 (degenerate case) maps to no level. -/
def Precision.from_num_digits : Nat → Option Precision
  | 0 => some Precision.HundredthMinute
  | 1 => some Precision.TenthMinute
  | 2 => some Precision.OneMinute
  | 3 => some Precision.TenMinute
  | 4 => some Precision.OneDegree
  | 5 => some Precision.TenDegree
  | _ => none

/-- Function `parse_bytes_trailing_spaces` from `lonlat.rs`: parses a 2-byte digit group
that may have trailing ambiguity spaces, returning the parsed value and the
number of spaces found; if `only_spaces` is set the group must be two spaces. -/
def parse_bytes_trailing_spaces (b0 b1 : Nat) (only_spaces : Bool) : Option (Nat × Nat) :=
  if only_spaces then
    if b0 = 32 ∧ b1 = 32 then some (0, 2) else none
  else
    if b0 = 32 ∧ b1 = 32 then some (0, 2)
    else if b1 = 32 then (parse_bytes [b0]).map (fun v => (v * 10, 1))
    else (parse_bytes [b0, b1]).map (fun v => (v, 0))

/-- Negation by hemisphere: keep the value for N/E, negate for S/W. -/
def applySign (pos : Bool) (v : ℚ) : ℚ :=
  if pos then v else -v

/-- The hemisphere byte of an uncompressed latitude: `N` → north, `S` → south. -/
def hemisphereLat (c : Nat) : Option Bool :=
  match c with
  | 78 => some true
  | 83 => some false
  | _ => none

/-- The hemisphere byte of an uncompressed longitude: `E` → east, `W` → west. -/
def hemisphereLon (c : Nat) : Option Bool :=
  match c with
  | 69 => some true
  | 87 => some false
  | _ => none

/-- Constructor `Latitude::new`: rejects values above 90, below -90, or NaN. -/
def Latitude.new (value : F64) : Option F64 :=
  if F64.lt (F64.fin 90) value || F64.lt value (F64.fin (-90)) || value.is_nan then
    none
  else
    some value

/-- Constructor `Longitude::new`: rejects values above 180, below -180, or NaN. -/
def Longitude.new (value : F64) : Option F64 :=
  if F64.lt (F64.fin 180) value || F64.lt value (F64.fin (-180)) || value.is_nan then
    none
  else
    some value

/-- Parser `Latitude::parse_uncompressed` from `lonlat.rs`: 8 bytes `DDMM.ffH`;
three 2-byte digit groups with trailing-space ambiguity chaining; total space
count mapped to a `Precision`; value `deg + min/60 + min_frac/6000`, negated
for the southern hemisphere, then bounds-checked. -/
def Latitude.parse_uncompressed (b : List Nat) : Option (F64 × Precision) :=
  if b.length ≠ 8 ∨ b.getD 4 0 ≠ 46 then none
  else
    (hemisphereLat (b.getD 7 0)).bind fun north =>
    (parse_bytes_trailing_spaces (b.getD 0 0) (b.getD 1 0) false).bind fun ds =>
    (parse_bytes_trailing_spaces (b.getD 2 0) (b.getD 3 0) (decide (0 < ds.2))).bind fun ms =>
    (parse_bytes_trailing_spaces (b.getD 5 0) (b.getD 6 0) (decide (0 < ms.2))).bind fun fs =>
    (Precision.from_num_digits (ds.2 + ms.2 + fs.2)).bind fun precision =>
    (Latitude.new (F64.fin (applySign north
      ((ds.1 : ℚ) + (ms.1 : ℚ) / 60 + (fs.1 : ℚ) / 6000)))).bind fun lat =>
    some (lat, precision)

/-- The 7-byte `DDDMMff` digit buffer a longitude parse assembles from its
9-byte input (bytes 0-4 and 6-7, skipping the dot). -/
def lonDigitBuffer (b : List Nat) : List Nat :=
  b.take 5 ++ (b.drop 6).take 2

/-- The for-loop in the longitude parser that overwrites buffer positions
`7 - num_digits` up to 6 with the ASCII digit zero: forces the trailing `n`
digit positions of the 7-byte buffer to 48. -/
def zeroOutDigits (buf : List Nat) (n : Nat) : List Nat :=
  buf.take (7 - n) ++ List.replicate n 48

/-- Parser `Longitude::parse_uncompressed` from `lonlat.rs`: 9 bytes `DDDMM.ffH`;
the trailing `precision.num_digits` digit positions are forced to `0` before
the three numeric fields are parsed; value negated for the west. -/
def Longitude.parse_uncompressed (b : List Nat) (precision : Precision) : Option F64 :=
  if b.length ≠ 9 ∨ b.getD 5 0 ≠ 46 then none
  else
    (hemisphereLon (b.getD 8 0)).bind fun east =>
    (parse_bytes ((zeroOutDigits (lonDigitBuffer b) precision.num_digits).take 3)).bind fun deg =>
    (parse_bytes (((zeroOutDigits (lonDigitBuffer b) precision.num_digits).drop 3).take 2)).bind fun mins =>
    (parse_bytes ((zeroOutDigits (lonDigitBuffer b) precision.num_digits).drop 5)).bind fun min_frac =>
    Longitude.new (F64.fin (applySign east
      ((deg : ℚ) + (mins : ℚ) / 60 + (min_frac : ℚ) / 6000)))

/-- Modelled from the spec: the base-91 fixed-width numeric decoder
(`base91::decode_ascii`, outside the reviewed sources): each of the 4 printable
bytes contributes its value minus 33 as one base-91 digit. -/
def base91.decode_ascii (b : List Nat) : Option ℚ :=
  if b.length = 4 ∧ b.all (fun c => 33 ≤ c ∧ c < 124) then
    some ((b.foldl (fun acc c => acc * 91 + (c - 33)) 0 : Nat) : ℚ)
  else none

/-- Modelled from the spec: the base-91 fixed-width numeric encoder
(`base91::encode_ascii`, outside the reviewed sources): the value truncated to
an integer, written as `width` base-91 digits offset by 33. -/
def base91.encode_ascii (value : ℚ) (width : Nat) : List Nat :=
  (List.range width).map fun i => 33 + ((Int.floor value).toNat / 91 ^ (width - 1 - i)) % 91

/-- Parser `Latitude::parse_compressed`: `90 - n/380926` for the base-91 value `n`,
bounds-checked. -/
def Latitude.parse_compressed (b : List Nat) : Option F64 :=
  (base91.decode_ascii b).bind fun n =>
  Latitude.new (F64.fin (90 - n / 380926))

/-- Encoder `Latitude::encode_compressed`: base-91 encodes `(90 - value) * 380926` to
4 characters. -/
def Latitude.encode_compressed (lat : ℚ) : List Nat :=
  base91.encode_ascii ((90 - lat) * 380926) 4

/-- Parser `Longitude::parse_compressed`: `n/190463 - 180`, bounds-checked. -/
def Longitude.parse_compressed (b : List Nat) : Option F64 :=
  (base91.decode_ascii b).bind fun n =>
  Longitude.new (F64.fin (n / 190463 - 180))

/-- Encoder `Longitude::encode_compressed`: base-91 encodes `(180 + value) * 190463`
to 4 characters. -/
def Longitude.encode_compressed (lon : ℚ) : List Nat :=
  base91.encode_ascii ((180 + lon) * 190463) 4

/-- Rust `f64::round`: round to nearest, ties away from zero. -/
def rustRound (q : ℚ) : ℤ :=
  if q < 0 then -(Int.floor (-q + 1 / 2)) else Int.floor (q + 1 / 2)

/-- Decimal ASCII digits of `n`, most significant first (`fuel`-based so the
kernel can evaluate it; `fuel` exceeding the digit count suffices). -/
def natToDigitsAux (fuel n : Nat) : List Nat :=
  match fuel with
  | 0 => []
  | fuel + 1 =>
    if n < 10 then [48 + n] else natToDigitsAux fuel (n / 10) ++ [48 + n % 10]

/-- The Rust zero-padded decimal format specifier of a given minimum width:
decimal digits, zero-padded on the left to at least `width` characters;
wider numbers keep all their digits. -/
def fmtPad (width n : Nat) : List Nat :=
  let ds := natToDigitsAux (n + 1) n
  List.replicate (width - ds.length) 48 ++ ds

/-- Encoder `Latitude::encode_uncompressed` from `lonlat.rs`: split off the
hemisphere sign, truncate degrees and minutes, round hundredths of a minute;
write the three zero-padded 2-digit numbers into a 6-byte space-filled buffer
truncated at `blank_index = 6 - num_digits`, where a short write fills exactly
the bytes that fit and leaves the rest as spaces; emit the first four buffer
bytes, the dot, the last two buffer bytes and the hemisphere letter. -/
def Latitude.encode_uncompressed (lat : ℚ) (precision : Precision) : List Nat :=
  let dir : Nat := if 0 ≤ lat then 78 else 83
  let lat' : ℚ := if 0 ≤ lat then lat else -lat
  let deg : Nat := (Int.floor lat').toNat
  let mins : Nat := (Int.floor ((lat' - (deg : ℚ)) * 60)).toNat
  let min_frac : Nat := (rustRound ((lat' - (deg : ℚ) - (mins : ℚ) / 60) * 6000)).toNat
  let blank_index : Nat := 6 - precision.num_digits
  let digits : List Nat := fmtPad 2 deg ++ fmtPad 2 mins ++ fmtPad 2 min_frac
  let digit_buffer : List Nat :=
    (List.range 6).map fun i =>
      if i < blank_index ∧ i < digits.length then digits.getD i 0 else 32
  digit_buffer.take 4 ++ [46] ++ (digit_buffer.drop 4).take 2 ++ [dir]

/-- Encoder `Longitude::encode_uncompressed` from `lonlat.rs`: no precision
parameter; writes zero-padded 3-digit degrees, 2-digit minutes, the dot,
2-digit hundredths of a minute and the hemisphere letter directly to the
output. -/
def Longitude.encode_uncompressed (lon : ℚ) : List Nat :=
  let dir : Nat := if 0 ≤ lon then 69 else 87
  let lon' : ℚ := if 0 ≤ lon then lon else -lon
  let deg : Nat := (Int.floor lon').toNat
  let mins : Nat := (Int.floor ((lon' - (deg : ℚ)) * 60)).toNat
  let min_frac : Nat := (rustRound ((lon' - (deg : ℚ) - (mins : ℚ) / 60) * 6000)).toNat
  fmtPad 3 deg ++ fmtPad 2 mins ++ [46] ++ fmtPad 2 min_frac ++ [dir]

/-- Structure `AprsStatus` from `status.rs`; the timestamp and callsign types are out of
scope, so the structure is polymorphic over them. -/
structure AprsStatus (T C : Type) where
  «to» : C
  data_type_identifier : Nat
  timestamp : Option T
  comment : List Nat
deriving DecidableEq

/-- Decoder `AprsStatus::decode` from `status.rs`, parameterized by the out-of-scope
`Timestamp::try_from` parser: the first 7 bytes become the timestamp if they
parse, otherwise the whole input is the comment; always succeeds. -/
def AprsStatus.decode {T C : Type} (tryFrom : List Nat → Option T) (b : List Nat)
    («to» : C) : Except Unit (AprsStatus T C) :=
  let timestamp := (if 7 ≤ b.length then some (b.take 7) else none).bind tryFrom
  let comment := if timestamp.isSome then b.drop 7 else b
  Except.ok
    { «to» := «to»
      data_type_identifier := 62
      timestamp := timestamp
      comment := comment }

/-- Byte positions of a 9-byte uncompressed longitude whose digit (in the
7-digit DDDMMff buffer) is overwritten when `n` trailing digits are blanked:
buffer index `j ≥ 7 - n`, where byte `i < 5` has buffer index `i` and bytes
6 and 7 have buffer indices 5 and 6 (byte 5 is the dot, byte 8 the
hemisphere). -/
def lonBlankedByte (n i : Nat) : Bool :=
  if i < 5 then decide (7 - n ≤ i)
  else if 6 ≤ i ∧ i ≤ 7 then decide (7 - n ≤ i - 1)
  else false

theorem list_len8 {bs : List Nat} (h : bs.length = 8) :
    ∃ x0 x1 x2 x3 x4 x5 x6 x7, bs = [x0, x1, x2, x3, x4, x5, x6, x7] := by
  rcases bs with _ | ⟨x0, _ | ⟨x1, _ | ⟨x2, _ | ⟨x3, _ | ⟨x4, _ | ⟨x5, _ | ⟨x6, _ | ⟨x7, _ | ⟨x8, tl⟩⟩⟩⟩⟩⟩⟩⟩⟩ <;>
    simp_all

theorem list_len9 {bs : List Nat} (h : bs.length = 9) :
    ∃ x0 x1 x2 x3 x4 x5 x6 x7 x8,
      bs = [x0, x1, x2, x3, x4, x5, x6, x7, x8] := by
  rcases bs with _ | ⟨x0, _ | ⟨x1, _ | ⟨x2, _ | ⟨x3, _ | ⟨x4, _ | ⟨x5, _ | ⟨x6, _ | ⟨x7, _ | ⟨x8, _ | ⟨x9, tl⟩⟩⟩⟩⟩⟩⟩⟩⟩⟩ <;>
    simp_all

theorem hemisphereLat_eq_some {c : Nat} {x : Bool} (h : hemisphereLat c = some x) :
    c = if x then 78 else 83 := by
  unfold hemisphereLat at h
  split at h <;> simp_all

theorem latParse_some_elim {b : List Nat} {v : F64} {p : Precision}
    (h : Latitude.parse_uncompressed b = some (v, p)) :
    ∃ b0 b1 b2 b3 b5 b6 north d s1 m s2 f s3,
      b = [b0, b1, b2, b3, 46, b5, b6, if north then 78 else 83] ∧
      parse_bytes_trailing_spaces b0 b1 false = some (d, s1) ∧
      parse_bytes_trailing_spaces b2 b3 (decide (0 < s1)) = some (m, s2) ∧
      parse_bytes_trailing_spaces b5 b6 (decide (0 < s2)) = some (f, s3) ∧
      Precision.from_num_digits (s1 + s2 + s3) = some p ∧
      v = F64.fin (applySign north ((d : ℚ) + (m : ℚ) / 60 + (f : ℚ) / 6000)) ∧
      -90 ≤ applySign north ((d : ℚ) + (m : ℚ) / 60 + (f : ℚ) / 6000) ∧
      applySign north ((d : ℚ) + (m : ℚ) / 60 + (f : ℚ) / 6000) ≤ 90 := by
  have hguard : ¬(b.length ≠ 8 ∨ b.getD 4 0 ≠ 46) := by
    intro hg
    rw [Latitude.parse_uncompressed, if_pos hg] at h
    exact Option.noConfusion h
  push_neg at hguard
  obtain ⟨hlen, hdot⟩ := hguard
  obtain ⟨b0, b1, b2, b3, b4, b5, b6, b7, rfl⟩ := list_len8 hlen
  simp only [List.getD_cons_zero, List.getD_cons_succ] at hdot
  subst hdot
  rw [Latitude.parse_uncompressed, if_neg (by simp)] at h
  simp only [List.getD_cons_zero, List.getD_cons_succ] at h
  cases hh : hemisphereLat b7 with
  | none => rw [hh] at h; exact Option.noConfusion h
  | some north =>
    rw [hh, Option.some_bind] at h
    cases h1 : parse_bytes_trailing_spaces b0 b1 false with
    | none => rw [h1] at h; exact Option.noConfusion h
    | some ds =>
      obtain ⟨d, s1⟩ := ds
      rw [h1, Option.some_bind] at h
      cases h2 : parse_bytes_trailing_spaces b2 b3 (decide (0 < s1)) with
      | none => rw [h2] at h; exact Option.noConfusion h
      | some ms =>
        obtain ⟨m, s2⟩ := ms
        rw [h2, Option.some_bind] at h
        cases h3 : parse_bytes_trailing_spaces b5 b6 (decide (0 < s2)) with
        | none => rw [h3] at h; exact Option.noConfusion h
        | some fs =>
          obtain ⟨f, s3⟩ := fs
          rw [h3, Option.some_bind] at h
          cases h4 : Precision.from_num_digits (s1 + s2 + s3) with
          | none => rw [h4] at h; exact Option.noConfusion h
          | some prec =>
            rw [h4, Option.some_bind, Latitude.new] at h
            split at h
            · exact Option.noConfusion h
            · rename_i hcond
              rw [Option.some_bind, Option.some_inj] at h
              dsimp only at h hcond h2 h3
              injection h with hv hp
              subst hv
              subst hp
              simp only [F64.lt, F64.is_nan, Bool.or_eq_true, decide_eq_true_eq,
                Bool.false_eq_true, or_false] at hcond
              push_neg at hcond
              refine ⟨b0, b1, b2, b3, b5, b6, north, d, s1, m, s2, f, s3,
                by rw [hemisphereLat_eq_some hh], h1, h2, h3, h4, rfl,
                hcond.2, hcond.1⟩

theorem pbts_only_spaces_elim {b0 b1 d s : Nat}
    (h : parse_bytes_trailing_spaces b0 b1 true = some (d, s)) :
    b0 = 32 ∧ b1 = 32 ∧ d = 0 ∧ s = 2 := by
  rw [parse_bytes_trailing_spaces, if_pos rfl] at h
  split at h
  · rename_i hsp
    simp only [Option.some_inj, Prod.mk.injEq] at h
    exact ⟨hsp.1, hsp.2, h.1.symm, h.2.symm⟩
  · exact Option.noConfusion h

theorem pbts_space_pos {b0 b1 d s : Nat} {os : Bool}
    (h : parse_bytes_trailing_spaces b0 b1 os = some (d, s))
    (hsp : b0 = 32 ∨ b1 = 32) : 0 < s := by
  cases os with
  | true => obtain ⟨-, -, -, rfl⟩ := pbts_only_spaces_elim h; omega
  | false =>
    rw [parse_bytes_trailing_spaces, if_neg (by simp)] at h
    split at h
    · simp only [Option.some_inj, Prod.mk.injEq] at h
      omega
    · split at h
      · simp only [Option.map_eq_some', Prod.mk.injEq] at h
        obtain ⟨w, -, -, hs⟩ := h
        omega
      · rename_i hns hn1
        have hb0 : b0 = 32 := by
          rcases hsp with h' | h'
          · exact h'
          · exact absurd h' hn1
        subst hb0
        rw [parse_bytes] at h
        simp [parse_bytes_aux] at h

/-- C1: a successful `Latitude::parse_uncompressed` run implies the input was 8
bytes with a dot at offset 4 and hemisphere byte `N` or `S`, and the value is
`deg + min/60 + min_frac/6000` from the three digit groups, negated for `S`,
within [-90, 90]. -/
theorem latitude_parse_uncompressed_spec (b : List Nat) (v : F64) (p : Precision)
    (h : Latitude.parse_uncompressed b = some (v, p)) :
    b.length = 8 ∧ b.getD 4 0 = 46 ∧ (b.getD 7 0 = 78 ∨ b.getD 7 0 = 83) ∧
    ∃ d s1 m s2 f s3,
      parse_bytes_trailing_spaces (b.getD 0 0) (b.getD 1 0) false = some (d, s1) ∧
      parse_bytes_trailing_spaces (b.getD 2 0) (b.getD 3 0) (decide (0 < s1)) = some (m, s2) ∧
      parse_bytes_trailing_spaces (b.getD 5 0) (b.getD 6 0) (decide (0 < s2)) = some (f, s3) ∧
      ((b.getD 7 0 = 78 ∧ v = F64.fin ((d : ℚ) + (m : ℚ) / 60 + (f : ℚ) / 6000) ∧
          -90 ≤ (d : ℚ) + (m : ℚ) / 60 + (f : ℚ) / 6000 ∧
          (d : ℚ) + (m : ℚ) / 60 + (f : ℚ) / 6000 ≤ 90) ∨
        (b.getD 7 0 = 83 ∧ v = F64.fin (-((d : ℚ) + (m : ℚ) / 60 + (f : ℚ) / 6000)) ∧
          -90 ≤ -((d : ℚ) + (m : ℚ) / 60 + (f : ℚ) / 6000) ∧
          -((d : ℚ) + (m : ℚ) / 60 + (f : ℚ) / 6000) ≤ 90)) := by
  obtain ⟨b0, b1, b2, b3, b5, b6, north, d, s1, m, s2, f, s3,
    rfl, h1, h2, h3, h4, hv, hlo, hhi⟩ := latParse_some_elim h
  cases north with
  | true =>
    exact ⟨rfl, rfl, Or.inl rfl, d, s1, m, s2, f, s3, h1, h2, h3,
      Or.inl ⟨rfl, hv, hlo, hhi⟩⟩
  | false =>
    exact ⟨rfl, rfl, Or.inr rfl, d, s1, m, s2, f, s3, h1, h2, h3,
      Or.inr ⟨rfl, hv, hlo, hhi⟩⟩

theorem latitude_parse_uncompressed_spec_witness :
    ([52, 57, 48, 51, 46, 53, 48, 78] : List Nat).getD 7 0 = 78 ∨
    ([52, 57, 48, 51, 46, 53, 48, 78] : List Nat).getD 7 0 = 83 :=
  (latitude_parse_uncompressed_spec [52, 57, 48, 51, 46, 53, 48, 78]
    (F64.fin (5887 / 120)) Precision.HundredthMinute
    (by norm_num [Latitude.parse_uncompressed, parse_bytes_trailing_spaces,
      parse_bytes, parse_bytes_aux, hemisphereLat, Precision.from_num_digits,
      Latitude.new, applySign, F64.lt, F64.is_nan])).2.2.1

/-- C4: in a successful latitude parse, once a digit group contains a space,
every group to its right is fully blank; equivalently a non-blank byte after
blanking has started makes the parse fail. -/
theorem latitude_blanking_monotone (b : List Nat) (v : F64) (p : Precision)
    (h : Latitude.parse_uncompressed b = some (v, p)) :
    ((b.getD 0 0 = 32 ∨ b.getD 1 0 = 32) →
      b.getD 2 0 = 32 ∧ b.getD 3 0 = 32 ∧ b.getD 5 0 = 32 ∧ b.getD 6 0 = 32) ∧
    ((b.getD 2 0 = 32 ∨ b.getD 3 0 = 32) → b.getD 5 0 = 32 ∧ b.getD 6 0 = 32) := by
  obtain ⟨b0, b1, b2, b3, b5, b6, north, d, s1, m, s2, f, s3,
    rfl, h1, h2, h3, h4, hv, hlo, hhi⟩ := latParse_some_elim h
  constructor
  · intro hsp
    have hs1 : 0 < s1 := pbts_space_pos h1 hsp
    rw [decide_eq_true hs1] at h2
    obtain ⟨e2, e3, -, rfl⟩ := pbts_only_spaces_elim h2
    rw [decide_eq_true (by omega : (0:Nat) < 2)] at h3
    obtain ⟨e5, e6, -, -⟩ := pbts_only_spaces_elim h3
    exact ⟨e2, e3, e5, e6⟩
  · intro hsp
    cases hs1 : decide (0 < s1) with
    | true =>
      rw [hs1] at h2
      obtain ⟨-, -, -, rfl⟩ := pbts_only_spaces_elim h2
      rw [decide_eq_true (by omega : (0:Nat) < 2)] at h3
      obtain ⟨e5, e6, -, -⟩ := pbts_only_spaces_elim h3
      exact ⟨e5, e6⟩
    | false =>
      rw [hs1] at h2
      have hs2 : 0 < s2 := pbts_space_pos h2 hsp
      rw [decide_eq_true hs2] at h3
      obtain ⟨e5, e6, -, -⟩ := pbts_only_spaces_elim h3
      exact ⟨e5, e6⟩

theorem latitude_blanking_monotone_witness :
    ([52, 57, 48, 32, 46, 32, 32, 83] : List Nat).getD 5 0 = 32 ∧
    ([52, 57, 48, 32, 46, 32, 32, 83] : List Nat).getD 6 0 = 32 :=
  (latitude_blanking_monotone [52, 57, 48, 32, 46, 32, 32, 83]
    (F64.fin (-49)) Precision.TenMinute
    (by norm_num [Latitude.parse_uncompressed, parse_bytes_trailing_spaces,
      parse_bytes, parse_bytes_aux, hemisphereLat, Precision.from_num_digits,
      Latitude.new, applySign, F64.lt, F64.is_nan])).2 (Or.inr rfl)

/-- C5: the fully ambiguous latitude (all six digit positions blank) is
rejected: a blank count of 6 maps to no `Precision` level, so the parse
fails on inputs such as four spaces, the dot, two spaces and a hemisphere
letter. -/
theorem fully_blank_latitude_rejected :
    Precision.from_num_digits 6 = none ∧
    ∀ b : List Nat, b.length = 8 →
      b.getD 0 0 = 32 → b.getD 1 0 = 32 → b.getD 2 0 = 32 → b.getD 3 0 = 32 →
      b.getD 5 0 = 32 → b.getD 6 0 = 32 →
      Latitude.parse_uncompressed b = none := by
  refine ⟨rfl, fun b hlen e0 e1 e2 e3 e5 e6 => ?_⟩
  cases hp : Latitude.parse_uncompressed b with
  | none => rfl
  | some vp =>
    obtain ⟨v, p⟩ := vp
    obtain ⟨b0, b1, b2, b3, b5, b6, north, d, s1, m, s2, f, s3,
      heq, h1, h2, h3, h4, -, -, -⟩ := latParse_some_elim hp
    subst heq
    have f0 : b0 = 32 := e0
    have f1 : b1 = 32 := e1
    have f2 : b2 = 32 := e2
    have f3 : b3 = 32 := e3
    have f5 : b5 = 32 := e5
    have f6 : b6 = 32 := e6
    subst f0; subst f1; subst f2; subst f3; subst f5; subst f6
    rw [show parse_bytes_trailing_spaces 32 32 false = some (0, 2) from rfl] at h1
    obtain ⟨-, hs1⟩ : (0 : Nat) = d ∧ (2 : Nat) = s1 := by
      simpa using h1
    rw [← hs1, decide_eq_true (by omega : (0:Nat) < 2)] at h2
    obtain ⟨-, -, -, hs2⟩ := pbts_only_spaces_elim h2
    rw [hs2, decide_eq_true (by omega : (0:Nat) < 2)] at h3
    obtain ⟨-, -, -, hs3⟩ := pbts_only_spaces_elim h3
    rw [← hs1, hs2, hs3] at h4
    exact Option.noConfusion h4

theorem fully_blank_latitude_rejected_witness :
    Latitude.parse_uncompressed [32, 32, 32, 32, 46, 32, 32, 83] = none :=
  fully_blank_latitude_rejected.2 [32, 32, 32, 32, 46, 32, 32, 83]
    rfl rfl rfl rfl rfl rfl rfl

/-- C3: `Latitude::new` accepts exactly the non-NaN values in [-90, 90]
(boundaries included) and `Longitude::new` exactly the non-NaN values in
[-180, 180]; NaN is always rejected. -/
theorem bounds_constructors_spec (q : ℚ) :
    ((Latitude.new (F64.fin q)).isSome ↔ -90 ≤ q ∧ q ≤ 90) ∧
    Latitude.new F64.nan = none ∧
    ((Longitude.new (F64.fin q)).isSome ↔ -180 ≤ q ∧ q ≤ 180) ∧
    Longitude.new F64.nan = none := by
  refine ⟨?_, rfl, ?_, rfl⟩
  · rw [Latitude.new]
    simp only [F64.lt, F64.is_nan, Bool.or_eq_true, decide_eq_true_eq,
      Bool.false_eq_true, or_false]
    split
    · rename_i hc
      simp only [Option.isSome_none, Bool.false_eq_true, false_iff, not_and,
        not_le]
      intro hb
      rcases hc with hc | hc <;> linarith
    · rename_i hc
      push_neg at hc
      simp only [Option.isSome_some, true_iff]
      exact ⟨by linarith [hc.2], by linarith [hc.1]⟩
  · rw [Longitude.new]
    simp only [F64.lt, F64.is_nan, Bool.or_eq_true, decide_eq_true_eq,
      Bool.false_eq_true, or_false]
    split
    · rename_i hc
      simp only [Option.isSome_none, Bool.false_eq_true, false_iff, not_and,
        not_le]
      intro hb
      rcases hc with hc | hc <;> linarith
    · rename_i hc
      push_neg at hc
      simp only [Option.isSome_some, true_iff]
      exact ⟨by linarith [hc.2], by linarith [hc.1]⟩

theorem bounds_constructors_spec_witness :
    (Latitude.new (F64.fin 90)).isSome = true ∧
    (Longitude.new (F64.fin (-180))).isSome = true :=
  ⟨((bounds_constructors_spec 90).1).mpr (by norm_num),
    ((bounds_constructors_spec (-180)).2.2.1).mpr (by norm_num)⟩

/-- C10: `AprsStatus::decode` is total — it returns `Ok` for every input and
timestamp parser; the first 7 bytes become the timestamp exactly when they
parse, otherwise the entire input is the comment; the data type identifier is
always `>` (62). -/
theorem aprs_status_decode_total {T C : Type} (tryFrom : List Nat → Option T)
    (b : List Nat) (cs : C) :
    ∃ r : AprsStatus T C, AprsStatus.decode tryFrom b cs = Except.ok r ∧
      r.data_type_identifier = 62 ∧ r.to = cs ∧
      (∀ t, 7 ≤ b.length → tryFrom (b.take 7) = some t →
        r.timestamp = some t ∧ r.comment = b.drop 7) ∧
      (b.length < 7 ∨ tryFrom (b.take 7) = none →
        r.timestamp = none ∧ r.comment = b) := by
  rw [AprsStatus.decode]
  refine ⟨_, rfl, rfl, rfl, ?_, ?_⟩
  · intro t h7 ht
    rw [if_pos h7, Option.some_bind, ht]
    exact ⟨rfl, rfl⟩
  · intro hfail
    rcases hfail with h7 | ht
    · rw [if_neg (by omega), Option.none_bind]
      exact ⟨rfl, rfl⟩
    · by_cases h7 : 7 ≤ b.length
      · rw [if_pos h7, Option.some_bind, ht]
        exact ⟨rfl, rfl⟩
      · rw [if_neg h7, Option.none_bind]
        exact ⟨rfl, rfl⟩

theorem aprs_status_decode_total_witness :
    AprsStatus.decode (fun _ => (none : Option Nat)) [72, 105] (0 : Nat) ≠
      Except.error () := by
  obtain ⟨r, h1, -⟩ := aprs_status_decode_total
    (fun _ => (none : Option Nat)) [72, 105] (0 : Nat)
  rw [h1]
  exact fun hc => Except.noConfusion hc

theorem hemisphereLon_eq_some {c : Nat} {x : Bool} (h : hemisphereLon c = some x) :
    c = if x then 69 else 87 := by
  unfold hemisphereLon at h
  split at h <;> simp_all

theorem zeroOutDigits_blank {buf : List Nat} {n i : Nat} (hbuf : buf.length = 7)
    (h1 : 7 - n ≤ i) (h2 : i < 7) :
    (zeroOutDigits buf n).getD i 0 = 48 := by
  rw [zeroOutDigits,
    List.getD_append_right _ _ _ _ (by simp [hbuf]; omega)]
  simp only [List.length_take, hbuf]
  have hlt : i - (7 - n) < n := by omega
  simp [List.getD, List.getElem?_replicate, hlt]

/-- C6: a successful `Longitude::parse_uncompressed` first forces the trailing
`num_digits` positions of the 7-digit DDDMMff buffer to ASCII `0`, then parses
the three numeric fields from that zeroed buffer; the value is
`deg + min/60 + min_frac/6000`, negated when the hemisphere byte is `W`. -/
theorem longitude_parse_uncompressed_spec (b : List Nat) (p : Precision) (v : F64)
    (h : Longitude.parse_uncompressed b p = some v) :
    b.length = 9 ∧ b.getD 5 0 = 46 ∧ (b.getD 8 0 = 69 ∨ b.getD 8 0 = 87) ∧
    (∀ i, 7 - p.num_digits ≤ i → i < 7 →
      (zeroOutDigits (lonDigitBuffer b) p.num_digits).getD i 0 = 48) ∧
    ∃ deg mins min_frac,
      parse_bytes ((zeroOutDigits (lonDigitBuffer b) p.num_digits).take 3) = some deg ∧
      parse_bytes (((zeroOutDigits (lonDigitBuffer b) p.num_digits).drop 3).take 2) =
        some mins ∧
      parse_bytes ((zeroOutDigits (lonDigitBuffer b) p.num_digits).drop 5) =
        some min_frac ∧
      ((b.getD 8 0 = 69 ∧
          v = F64.fin ((deg : ℚ) + (mins : ℚ) / 60 + (min_frac : ℚ) / 6000)) ∨
        (b.getD 8 0 = 87 ∧
          v = F64.fin (-((deg : ℚ) + (mins : ℚ) / 60 + (min_frac : ℚ) / 6000)))) := by
  have hguard : ¬(b.length ≠ 9 ∨ b.getD 5 0 ≠ 46) := by
    intro hg
    rw [Longitude.parse_uncompressed, if_pos hg] at h
    exact Option.noConfusion h
  push_neg at hguard
  obtain ⟨hlen, hdot⟩ := hguard
  have hbuf : (lonDigitBuffer b).length = 7 := by
    obtain ⟨b0, b1, b2, b3, b4, b5, b6, b7, b8, rfl⟩ := list_len9 hlen
    rfl
  refine ⟨hlen, hdot, ?_⟩
  rw [Longitude.parse_uncompressed, if_neg (by push_neg; exact ⟨hlen, hdot⟩)] at h
  cases hh : hemisphereLon (b.getD 8 0) with
  | none => rw [hh] at h; exact Option.noConfusion h
  | some east =>
    rw [hh, Option.some_bind] at h
    cases h1 : parse_bytes ((zeroOutDigits (lonDigitBuffer b) p.num_digits).take 3) with
    | none => rw [h1] at h; exact Option.noConfusion h
    | some deg =>
      rw [h1, Option.some_bind] at h
      cases h2 : parse_bytes (((zeroOutDigits (lonDigitBuffer b) p.num_digits).drop 3).take 2) with
      | none => rw [h2] at h; exact Option.noConfusion h
      | some mins =>
        rw [h2, Option.some_bind] at h
        cases h3 : parse_bytes ((zeroOutDigits (lonDigitBuffer b) p.num_digits).drop 5) with
        | none => rw [h3] at h; exact Option.noConfusion h
        | some min_frac =>
          rw [h3, Option.some_bind, Longitude.new] at h
          split at h
          · exact Option.noConfusion h
          · rw [Option.some_inj] at h
            have hc := hemisphereLon_eq_some hh
            cases east with
            | true =>
              exact ⟨Or.inl hc, fun i hi1 hi2 => zeroOutDigits_blank hbuf hi1 hi2,
                deg, mins, min_frac, rfl, rfl, rfl, Or.inl ⟨hc, h.symm⟩⟩
            | false =>
              exact ⟨Or.inr hc, fun i hi1 hi2 => zeroOutDigits_blank hbuf hi1 hi2,
                deg, mins, min_frac, rfl, rfl, rfl, Or.inr ⟨hc, h.symm⟩⟩

theorem longitude_parse_uncompressed_spec_witness :
    ([48, 48, 48, 48, 48, 46, 90, 90, 87] : List Nat).getD 8 0 = 69 ∨
    ([48, 48, 48, 48, 48, 46, 90, 90, 87] : List Nat).getD 8 0 = 87 :=
  (longitude_parse_uncompressed_spec [48, 48, 48, 48, 48, 46, 90, 90, 87]
    Precision.OneMinute (F64.fin 0)
    (by norm_num [Longitude.parse_uncompressed, lonDigitBuffer, zeroOutDigits,
      parse_bytes, parse_bytes_aux, hemisphereLon, Precision.num_digits,
      Longitude.new, applySign, F64.lt, F64.is_nan, List.replicate])).2.2.1

/-- C9: `Longitude::parse_uncompressed` never inspects the bytes it blanks:
for a precision with at least one blanked digit, inputs agreeing outside the
blanked positions parse identically. -/
theorem longitude_parse_ignores_blanked (p : Precision) (hp : 1 ≤ p.num_digits)
    (b b' : List Nat) (hb : b.length = 9) (hb' : b'.length = 9)
    (hagree : ∀ i, i < 9 → lonBlankedByte p.num_digits i = false →
      b.getD i 0 = b'.getD i 0) :
    Longitude.parse_uncompressed b p = Longitude.parse_uncompressed b' p := by
  obtain ⟨a0, a1, a2, a3, a4, a5, a6, a7, a8, rfl⟩ := list_len9 hb
  obtain ⟨c0, c1, c2, c3, c4, c5, c6, c7, c8, rfl⟩ := list_len9 hb'
  cases p with
  | HundredthMinute => simp [Precision.num_digits] at hp
  | TenthMinute =>
    have e0 : a0 = c0 := hagree 0 (by decide) (by decide)
    have e1 : a1 = c1 := hagree 1 (by decide) (by decide)
    have e2 : a2 = c2 := hagree 2 (by decide) (by decide)
    have e3 : a3 = c3 := hagree 3 (by decide) (by decide)
    have e4 : a4 = c4 := hagree 4 (by decide) (by decide)
    have e5 : a5 = c5 := hagree 5 (by decide) (by decide)
    have e6 : a6 = c6 := hagree 6 (by decide) (by decide)
    have e8 : a8 = c8 := hagree 8 (by decide) (by decide)
    subst e0; subst e1; subst e2; subst e3; subst e4; subst e5; subst e6; subst e8
    rfl
  | OneMinute =>
    have e0 : a0 = c0 := hagree 0 (by decide) (by decide)
    have e1 : a1 = c1 := hagree 1 (by decide) (by decide)
    have e2 : a2 = c2 := hagree 2 (by decide) (by decide)
    have e3 : a3 = c3 := hagree 3 (by decide) (by decide)
    have e4 : a4 = c4 := hagree 4 (by decide) (by decide)
    have e5 : a5 = c5 := hagree 5 (by decide) (by decide)
    have e8 : a8 = c8 := hagree 8 (by decide) (by decide)
    subst e0; subst e1; subst e2; subst e3; subst e4; subst e5; subst e8
    rfl
  | TenMinute =>
    have e0 : a0 = c0 := hagree 0 (by decide) (by decide)
    have e1 : a1 = c1 := hagree 1 (by decide) (by decide)
    have e2 : a2 = c2 := hagree 2 (by decide) (by decide)
    have e3 : a3 = c3 := hagree 3 (by decide) (by decide)
    have e5 : a5 = c5 := hagree 5 (by decide) (by decide)
    have e8 : a8 = c8 := hagree 8 (by decide) (by decide)
    subst e0; subst e1; subst e2; subst e3; subst e5; subst e8
    rfl
  | OneDegree =>
    have e0 : a0 = c0 := hagree 0 (by decide) (by decide)
    have e1 : a1 = c1 := hagree 1 (by decide) (by decide)
    have e2 : a2 = c2 := hagree 2 (by decide) (by decide)
    have e5 : a5 = c5 := hagree 5 (by decide) (by decide)
    have e8 : a8 = c8 := hagree 8 (by decide) (by decide)
    subst e0; subst e1; subst e2; subst e5; subst e8
    rfl
  | TenDegree =>
    have e0 : a0 = c0 := hagree 0 (by decide) (by decide)
    have e1 : a1 = c1 := hagree 1 (by decide) (by decide)
    have e5 : a5 = c5 := hagree 5 (by decide) (by decide)
    have e8 : a8 = c8 := hagree 8 (by decide) (by decide)
    subst e0; subst e1; subst e5; subst e8
    rfl

theorem longitude_parse_ignores_blanked_witness :
    Longitude.parse_uncompressed [48, 48, 48, 48, 48, 46, 90, 90, 87]
        Precision.OneMinute =
      Longitude.parse_uncompressed [48, 48, 48, 48, 48, 46, 48, 48, 87]
        Precision.OneMinute ∧
    Longitude.parse_uncompressed [48, 48, 48, 48, 48, 46, 48, 48, 87]
        Precision.OneMinute = some (F64.fin 0) :=
  ⟨longitude_parse_ignores_blanked Precision.OneMinute (by decide)
      [48, 48, 48, 48, 48, 46, 90, 90, 87] [48, 48, 48, 48, 48, 46, 48, 48, 87]
      rfl rfl (by decide),
    by norm_num [Longitude.parse_uncompressed, lonDigitBuffer, zeroOutDigits,
      parse_bytes, parse_bytes_aux, hemisphereLon, Precision.num_digits,
      Longitude.new, applySign, F64.lt, F64.is_nan, List.replicate]⟩

theorem lat_encode_eval (lat : ℚ) (deg mins mf : Nat) (p : Precision)
    (h0 : 0 ≤ lat) (hdeg : Int.floor lat = (deg : ℤ))
    (hmins : Int.floor ((lat - (deg : ℚ)) * 60) = (mins : ℤ))
    (hmf : rustRound ((lat - (deg : ℚ) - (mins : ℚ) / 60) * 6000) = (mf : ℤ)) :
    Latitude.encode_uncompressed lat p =
      (let digits := fmtPad 2 deg ++ fmtPad 2 mins ++ fmtPad 2 mf
       let digit_buffer : List Nat := (List.range 6).map fun i =>
         if i < 6 - p.num_digits ∧ i < digits.length then digits.getD i 0 else 32
       digit_buffer.take 4 ++ [46] ++ (digit_buffer.drop 4).take 2 ++ [78]) := by
  simp only [Latitude.encode_uncompressed, if_pos h0]
  rw [hdeg]
  simp only [Int.toNat_natCast]
  rw [hmins]
  simp only [Int.toNat_natCast]
  rw [hmf]
  simp only [Int.toNat_natCast]

theorem lon_encode_eval (lon : ℚ) (deg mins mf : Nat)
    (h0 : 0 ≤ lon) (hdeg : Int.floor lon = (deg : ℤ))
    (hmins : Int.floor ((lon - (deg : ℚ)) * 60) = (mins : ℤ))
    (hmf : rustRound ((lon - (deg : ℚ) - (mins : ℚ) / 60) * 6000) = (mf : ℤ)) :
    Longitude.encode_uncompressed lon =
      fmtPad 3 deg ++ fmtPad 2 mins ++ [46] ++ fmtPad 2 mf ++ [69] := by
  simp only [Longitude.encode_uncompressed, if_pos h0]
  rw [hdeg]
  simp only [Int.toNat_natCast]
  rw [hmins]
  simp only [Int.toNat_natCast]
  rw [hmf]
  simp only [Int.toNat_natCast]

/-- C2 (failing): at `lat = 49 + 59/60 + 99.6/6000` (≈ 49.99992) the rounded
hundredths-of-minute value is 100; its three digits overflow the 6-byte digit
buffer, the encoder emits the bytes of `4959.10N`, and re-parsing gives
49.985, about 0.0149 degrees away from the original, far beyond 1/6000. -/
theorem latitude_roundtrip_overflow_bug :
    Latitude.encode_uncompressed (49 + 59 / 60 + 83 / 5000)
        Precision.HundredthMinute = [52, 57, 53, 57, 46, 49, 48, 78] ∧
    Latitude.parse_uncompressed [52, 57, 53, 57, 46, 49, 48, 78] =
      some (F64.fin (9997 / 200), Precision.HundredthMinute) ∧
    1 / 6000 < |(49 + 59 / 60 + 83 / 5000 : ℚ) - 9997 / 200| := by
  refine ⟨?_, ?_, ?_⟩
  · rw [lat_encode_eval (49 + 59 / 60 + 83 / 5000) 49 59 100
      Precision.HundredthMinute (by norm_num) (by norm_num [Int.floor_eq_iff])
      (by norm_num [Int.floor_eq_iff])
      (by norm_num [rustRound, Int.floor_eq_iff])]
    rfl
  · norm_num [Latitude.parse_uncompressed, parse_bytes_trailing_spaces,
      parse_bytes, parse_bytes_aux, hemisphereLat, Precision.from_num_digits,
      Latitude.new, applySign, F64.lt, F64.is_nan]
  · rw [abs_of_pos (by norm_num)]
    norm_num

/-- C8 (failing): at `lon = 100 + 59/60 + 99.6/6000` the rounded
hundredths-of-minute value is 100 and the 2-digit format prints all three of
its digits, so the encoder emits the 10 bytes of `10059.100E` rather than a
9-byte `DDDMM.ffH` field. -/
theorem longitude_encode_overflow_bug :
    Longitude.encode_uncompressed (100 + 59 / 60 + 83 / 5000) =
      [49, 48, 48, 53, 57, 46, 49, 48, 48, 69] ∧
    (Longitude.encode_uncompressed (100 + 59 / 60 + 83 / 5000)).length = 10 := by
  have he : Longitude.encode_uncompressed (100 + 59 / 60 + 83 / 5000) =
      [49, 48, 48, 53, 57, 46, 49, 48, 48, 69] := by
    rw [lon_encode_eval (100 + 59 / 60 + 83 / 5000) 100 59 100
      (by norm_num) (by norm_num [Int.floor_eq_iff])
      (by norm_num [Int.floor_eq_iff])
      (by norm_num [rustRound, Int.floor_eq_iff])]
    rfl
  exact ⟨he, by rw [he]; rfl⟩

theorem base91_roundtrip (x : ℚ) (h0 : 0 ≤ x) (h1 : x < 68574961) :
    base91.decode_ascii (base91.encode_ascii x 4) =
      some (((Int.floor x).toNat : ℚ)) := by
  have hf0 : 0 ≤ Int.floor x := Int.floor_nonneg.mpr h0
  have hnlt : (Int.floor x).toNat < 68574961 := by
    have hf : Int.floor x < (68574961 : ℤ) := by
      rw [Int.floor_lt]
      push_cast
      exact h1
    omega
  rw [base91.encode_ascii, show List.range 4 = [0, 1, 2, 3] from rfl]
  simp only [List.map_cons, List.map_nil]
  rw [base91.decode_ascii]
  rw [if_pos ?side]
  case side =>
    refine ⟨rfl, ?_⟩
    simp only [List.all_cons, List.all_nil, Bool.and_eq_true, decide_eq_true_eq]
    norm_num
    omega
  congr 1
  simp only [List.foldl_cons, List.foldl_nil]
  have key : (((0 * 91 + (33 + (Int.floor x).toNat / 91 ^ (4 - 1 - 0) % 91 - 33)) * 91 +
      (33 + (Int.floor x).toNat / 91 ^ (4 - 1 - 1) % 91 - 33)) * 91 +
      (33 + (Int.floor x).toNat / 91 ^ (4 - 1 - 2) % 91 - 33)) * 91 +
      (33 + (Int.floor x).toNat / 91 ^ (4 - 1 - 3) % 91 - 33) = (Int.floor x).toNat := by
    norm_num
    omega
  rw [key]

/-- C7: the compressed round-trip reproduces every valid coordinate within
the 4-character base-91 resolution: encode writes `(90 - lat) * 380926`
(resp. `(180 + lon) * 190463`) and parse applies the inverse formula, so the
round-tripped value is within `1/380926` (resp. `1/190463`) of a degree. -/
theorem compressed_roundtrip (q r : ℚ) (hq1 : -90 ≤ q) (hq2 : q ≤ 90)
    (hr1 : -180 ≤ r) (hr2 : r ≤ 180) :
    (∃ v : ℚ, Latitude.parse_compressed (Latitude.encode_compressed q) =
        some (F64.fin v) ∧ |v - q| ≤ 1 / 380926) ∧
    (∃ w : ℚ, Longitude.parse_compressed (Longitude.encode_compressed r) =
        some (F64.fin w) ∧ |w - r| ≤ 1 / 190463) := by
  constructor
  · have h0 : 0 ≤ (90 - q) * 380926 := by linarith
    have hlt : (90 - q) * 380926 < 68574961 := by linarith
    have hcast : (((Int.floor ((90 - q) * 380926)).toNat : ℕ) : ℚ) =
        ((Int.floor ((90 - q) * 380926) : ℤ) : ℚ) := by
      exact_mod_cast Int.toNat_of_nonneg (Int.floor_nonneg.mpr h0)
    have hfle : ((Int.floor ((90 - q) * 380926) : ℤ) : ℚ) ≤ (90 - q) * 380926 :=
      Int.floor_le _
    have hfgt : (90 - q) * 380926 - 1 < ((Int.floor ((90 - q) * 380926) : ℤ) : ℚ) :=
      Int.sub_one_lt_floor _
    have hf0 : (0 : ℚ) ≤ ((Int.floor ((90 - q) * 380926) : ℤ) : ℚ) := by
      exact_mod_cast Int.floor_nonneg.mpr h0
    rw [Latitude.encode_compressed, Latitude.parse_compressed,
      base91_roundtrip _ h0 hlt, Option.some_bind, hcast]
    refine ⟨90 - ((Int.floor ((90 - q) * 380926) : ℤ) : ℚ) / 380926, ?_, ?_⟩
    · rw [Latitude.new, if_neg ?c]
      case c =>
        simp only [F64.lt, F64.is_nan, Bool.or_eq_true, decide_eq_true_eq,
          Bool.false_eq_true, or_false, not_or]
        constructor
        · intro hcc
          have : ((Int.floor ((90 - q) * 380926) : ℤ) : ℚ) / 380926 < 0 := by
            linarith
          nlinarith
        · intro hcc
          nlinarith
    · rw [abs_of_nonneg (by nlinarith)]
      nlinarith
  · have h0 : 0 ≤ (180 + r) * 190463 := by linarith
    have hlt : (180 + r) * 190463 < 68574961 := by linarith
    have hcast : (((Int.floor ((180 + r) * 190463)).toNat : ℕ) : ℚ) =
        ((Int.floor ((180 + r) * 190463) : ℤ) : ℚ) := by
      exact_mod_cast Int.toNat_of_nonneg (Int.floor_nonneg.mpr h0)
    have hfle : ((Int.floor ((180 + r) * 190463) : ℤ) : ℚ) ≤ (180 + r) * 190463 :=
      Int.floor_le _
    have hfgt : (180 + r) * 190463 - 1 < ((Int.floor ((180 + r) * 190463) : ℤ) : ℚ) :=
      Int.sub_one_lt_floor _
    have hf0 : (0 : ℚ) ≤ ((Int.floor ((180 + r) * 190463) : ℤ) : ℚ) := by
      exact_mod_cast Int.floor_nonneg.mpr h0
    rw [Longitude.encode_compressed, Longitude.parse_compressed,
      base91_roundtrip _ h0 hlt, Option.some_bind, hcast]
    refine ⟨((Int.floor ((180 + r) * 190463) : ℤ) : ℚ) / 190463 - 180, ?_, ?_⟩
    · rw [Longitude.new, if_neg ?c]
      case c =>
        simp only [F64.lt, F64.is_nan, Bool.or_eq_true, decide_eq_true_eq,
          Bool.false_eq_true, or_false, not_or]
        constructor
        · intro hcc
          nlinarith
        · intro hcc
          nlinarith
    · rw [abs_of_nonpos (by nlinarith)]
      nlinarith

theorem compressed_roundtrip_witness :
    (Latitude.parse_compressed (Latitude.encode_compressed 0)).isSome = true ∧
    (Longitude.parse_compressed (Longitude.encode_compressed 0)).isSome = true := by
  obtain ⟨⟨v, hv, -⟩, ⟨w, hw, -⟩⟩ :=
    compressed_roundtrip 0 0 (by norm_num) (by norm_num) (by norm_num) (by norm_num)
  rw [hv, hw]
  exact ⟨rfl, rfl⟩
